import Mathlib

/-!
Verification development for the GravurefitSCRAPER repository (two Python
scrapers: `src/scrapers/Gravurefit_python.py` and `src/JavLibrary_python.py`).

The Python code is shallowly embedded: JSON values become the inductive
type `JVal`, Python truthiness becomes `truthy`, `dict.get` becomes `jget`,
and each scraper function named below is a direct transcription of the
corresponding Python function.  External effects (the HTTP transport, the
lxml HTML parser, the file system) are modelled as explicit inputs to the
embedded functions.
-/

/-- JSON values as produced by `json.loads` / `r.json()`.  Numbers are
modelled as integers (every number appearing in the scrapers' logic —
timestamps, status codes — is integral; float-specific behaviour is not
exercised by the claims). -/
inductive JVal where
  | null
  | bool (b : Bool)
  | num (n : Int)
  | str (s : String)
  | arr (xs : List JVal)
  | obj (kvs : List (String × JVal))

/-- Python truthiness (`bool(x)`) of a JSON value: `None`, `False`, `0`,
`""`, `[]` and `{}` are falsy, everything else is truthy. -/
def truthy : JVal → Bool
  | .null => false
  | .bool b => b
  | .num n => n != 0
  | .str s => s != ""
  | .arr xs => !xs.isEmpty
  | .obj kvs => !kvs.isEmpty

/-- Association-list lookup for JSON objects.  `json.loads` produces
dictionaries without duplicate keys (a duplicated key in the source text
keeps the last value); the embedding assumes key lists without duplicates,
so first-match lookup is faithful. -/
def kvLookup : List (String × JVal) → String → JVal
  | [], _ => .null
  | (k, v) :: rest, key => if k = key then v else kvLookup rest key

/-- Python `d.get(k)` (equivalently `d.get(k, None)`): the stored value, or
`None` when the key is missing.  A stored JSON `null` is Python `None`, so
both cases map to `JVal.null`.  In the source `.get` is only reached after
an `isinstance(..., dict)` check (calling it on a non-dict would raise);
the non-object case here is never hit by the embedded code paths that
mirror guarded call sites. -/
def jget : JVal → String → JVal
  | .obj kvs, key => kvLookup kvs key
  | _, _ => .null

/-- Python `a or b`: `a` if `a` is truthy, else `b`. -/
def pyOr (a b : JVal) : JVal := if truthy a then a else b

/-- Predicate for JSON objects (Python `dict`s). -/
def JVal.isObj : JVal → Bool
  | .obj _ => true
  | _ => false

/-- Predicate for Python `None` (`x is None`). -/
def JVal.isNull : JVal → Bool
  | .null => true
  | _ => false

/-- The normalized result dictionary returned by `fetch_via_flaresolverr`:
`{"ok": ..., "status": ..., "html": ..., "cookies": ..., "raw": ...}`.
`status`, `html` and `cookies` are arbitrary Python values in the source
(the fallback chain can assign any JSON value to them), so they are kept
as `JVal` (`JVal.null` standing for Python `None`). -/
structure FetchResult where
  ok : Bool
  status : JVal
  html : JVal
  cookies : JVal
  raw : JVal

/-- The body of `fetch_via_flaresolverr` after `data = r.json()` succeeded
(lines 161–194 of `Gravurefit_python.py`, identical in
`JavLibrary_python.py` lines 160–195): the shape-fallback chain that
recovers `html_content`, `cookies` and `status` from the proxy's JSON
response, and the final
`{"ok": bool(html_content), "status": status, "html": html_content,
"cookies": cookies, "raw": data}`.  The Python locals start as
`html_content = None`, `cookies = []`, `status = None`. -/
def parseFlareBody (data : JVal) : FetchResult :=
  match data with
  | .obj _ =>
    let sol := pyOr (jget data "solution") (pyOr (jget data "response") data)
    let step1 : JVal × JVal × JVal :=
      match sol with
      | .obj _ =>
        match jget sol "response" with
        | .obj rkvs =>
          let resp := JVal.obj rkvs
          (pyOr (jget resp "data") (pyOr (jget resp "content") (pyOr (jget resp "html") .null)),
           pyOr (jget resp "cookies") (pyOr (jget sol "cookies") (.arr [])),
           pyOr (jget resp "status") (pyOr (jget sol "status") .null))
        | .str s =>
          (.str s, pyOr (jget sol "cookies") (.arr []), pyOr (jget sol "status") .null)
        | _ =>
          (pyOr (jget sol "data") (pyOr (jget sol "content") (pyOr (jget sol "html") .null)),
           pyOr (jget sol "cookies") (.arr []),
           pyOr (jget sol "status") .null)
      | .str s => (.str s, .arr [], .null)
      | _ => (.null, .arr [], .null)
    let html1 := step1.1
    let cookies1 := step1.2.1
    let status1 := step1.2.2
    let step2 : JVal × JVal × JVal :=
      if truthy html1 then (html1, cookies1, status1)
      else
        match jget data "response" with
        | .obj rkvs =>
          let resp2 := JVal.obj rkvs
          (pyOr (jget resp2 "content") (pyOr (jget resp2 "data") (pyOr (jget resp2 "html") html1)),
           pyOr (jget resp2 "cookies") cookies1,
           pyOr (jget resp2 "status") status1)
        | .str s => (.str s, cookies1, status1)
        | _ => (html1, cookies1, status1)
    { ok := truthy step2.1, status := step2.2.2, html := step2.1,
      cookies := step2.2.1, raw := data }
  | _ => { ok := false, status := .null, html := .null, cookies := .arr [], raw := data }

/-- Outcome of the HTTP POST to the FlareSolverr endpoint, as seen by
`fetch_via_flaresolverr`.  `failure` covers every exception raised by
`requests.post(...)` / `r.raise_for_status()` — connection error, timeout,
and a non-2xx status (which `raise_for_status` turns into an exception);
`nonJson` is a 2xx reply whose body `r.json()` cannot parse; `json` is a
2xx reply with JSON body `v`. -/
inductive TransportOutcome where
  | failure (msg : String)
  | nonJson (body : String)
  | json (v : JVal)

/-- Embedding of `fetch_via_flaresolverr` as a function of the transport
outcome (`msg` is `str(e)` of the caught exception).  The Python function
catches every transport exception and returns a dictionary, so the
embedding is total: no exception escapes this boundary. -/
def fetch_via_flaresolverr : TransportOutcome → FetchResult
  | .failure msg =>
    { ok := false, status := .null, html := .null, cookies := .arr [],
      raw := .obj [("error", .str msg)] }
  | .nonJson body =>
    { ok := false, status := .null, html := .str body, cookies := .arr [],
      raw := .str body }
  | .json v => parseFlareBody v

/-- Proxy response of shape `{"solution": {"response": {"data": h}}}`. -/
def shapeA (h : String) : JVal :=
  .obj [("solution", .obj [("response", .obj [("data", .str h)])])]

/-- Proxy response of shape `{"response": h}`. -/
def shapeB (h : String) : JVal := .obj [("response", .str h)]

/-- Claim C2 (corrected), amended: for every NON-EMPTY html string `h`, a
proxy body `{solution: {response: {data: h}}}` and one `{response: h}`
yield the same `html` value (`h`) and the same `ok` flag (`true`).  As
stated the claim fails at `h = ""` (see the counterexample): the nested
shape leaves `html = None` while the flat shape returns `html = ""`. -/
theorem C2_shape_invariance (h : String) (hne : h ≠ "") :
    (parseFlareBody (shapeA h)).html = JVal.str h
  ∧ (parseFlareBody (shapeB h)).html = JVal.str h
  ∧ (parseFlareBody (shapeA h)).ok = true
  ∧ (parseFlareBody (shapeB h)).ok = true := by
  have hb : (h != "") = true := bne_iff_ne.mpr hne
  refine ⟨?_, ?_, ?_, ?_⟩ <;>
    simp [parseFlareBody, shapeA, shapeB, jget, kvLookup, pyOr, truthy, hb]

/-- Claim C2, witness for the amended theorem at `h = "<p>x</p>"`. -/
theorem C2_witness :
    (parseFlareBody (shapeA "<p>x</p>")).html = JVal.str "<p>x</p>"
  ∧ (parseFlareBody (shapeB "<p>x</p>")).html = JVal.str "<p>x</p>" := by
  have h := C2_shape_invariance "<p>x</p>" (by decide)
  exact ⟨h.1, h.2.1⟩

/-- Claim C2, counterexample to the claim as stated: at `h = ""` the two
response shapes do NOT yield the same `html` value — the nested shape
yields Python `None`, the flat shape yields `""` (the `ok` flags do
agree, both `false`). -/
theorem C2_counterexample :
    (parseFlareBody (shapeA "")).html = JVal.null
  ∧ (parseFlareBody (shapeB "")).html = JVal.str ""
  ∧ (parseFlareBody (shapeA "")).ok = false
  ∧ (parseFlareBody (shapeB "")).ok = false := ⟨rfl, rfl, rfl, rfl⟩

/-- Claim C5 (corrected), amended: `ok` equals the Python truthiness of
whatever value the fallback chain recovered into `html_content`,
independently of any status field of the response (`ok` is a function of
the recovered `html` alone); when the recovered value is a string `s`,
`ok = true` iff `s` is non-empty.  As stated the claim fails because the
chain can recover a truthy NON-string (see the counterexample), which
also sets `ok = true`. -/
theorem C5_ok_iff_truthy_html (data : JVal) :
    (parseFlareBody data).ok = truthy (parseFlareBody data).html
  ∧ (∀ s, (parseFlareBody data).html = JVal.str s →
      ((parseFlareBody data).ok = true ↔ s ≠ "")) := by
  have h1 : (parseFlareBody data).ok = truthy (parseFlareBody data).html := by
    cases data <;> simp [parseFlareBody, truthy]
  refine ⟨h1, fun s hs => ?_⟩
  rw [h1, hs]
  simp [truthy]

/-- Claim C5, witness: a response whose recovered html is the string `""`
(status is irrelevant) has `ok = false`, via the amended theorem. -/
theorem C5_witness :
    (parseFlareBody (shapeB "")).html = JVal.str ""
  ∧ (parseFlareBody (shapeB "")).ok = false := by
  have h := (C5_ok_iff_truthy_html (shapeB "")).2 "" rfl
  exact ⟨rfl, by simpa using h⟩

/-- Claim C5, counterexample to the claim as stated: the JSON object
`{"response": {"data": 7}}` reports `ok = true` although the fallback
chain recovered the number `7`, not a non-empty HTML string. -/
theorem C5_counterexample :
    (parseFlareBody (JVal.obj [("response", JVal.obj [("data", JVal.num 7)])])).ok = true
  ∧ (parseFlareBody (JVal.obj [("response", JVal.obj [("data", JVal.num 7)])])).html
      = JVal.num 7 := ⟨rfl, rfl⟩

/-- Claim C7 (confirmed): every transport failure of the proxy request —
connection error, timeout, or non-2xx status (all of which surface as the
caught exception of `requests.post` / `raise_for_status`) — returns
exactly `{ok: False, status: None, html: None, cookies: [], raw:
{"error": str(e)}}`; the embedded function is total, so no exception
propagates past this boundary. -/
theorem C7_transport_failure (msg : String) :
    fetch_via_flaresolverr (.failure msg) =
      { ok := false, status := .null, html := .null, cookies := .arr [],
        raw := .obj [("error", .str msg)] } := rfl

/-- A single-quote character as a string (used by `pyRepr`). -/
def sglq : String := String.singleton (Char.ofNat 39)

/-- Python `", ".join` over an already-materialised list of parts. -/
def joinComma : List String → String
  | [] => ""
  | [p] => p
  | p :: ps => p ++ ", " ++ joinComma ps

/-- Python `repr()` of a JSON value, as used by `str()` on containers:
`None`/`True`/`False`, decimal integers, single-quoted strings, and
bracketed containers.  Escaping of quote characters inside strings is not
modelled (no claim in scope depends on it; cookie names and values
produced by the proxy are plain strings). -/
def pyRepr : JVal → String
  | .null => "None"
  | .bool true => "True"
  | .bool false => "False"
  | .num n => toString n
  | .str s => sglq ++ s ++ sglq
  | .arr xs => "[" ++ joinComma (xs.attach.map fun x => pyRepr x.1) ++ "]"
  | .obj kvs =>
      "\x7b" ++ joinComma (kvs.attach.map fun kv => sglq ++ kv.1.1 ++ sglq ++ ": " ++ pyRepr kv.1.2) ++ "\x7d"
termination_by v => sizeOf v
decreasing_by
  · have := List.sizeOf_lt_of_mem x.2
    simp only [JVal.arr.sizeOf_spec]
    omega
  · have h1 := List.sizeOf_lt_of_mem kv.2
    have h2 : sizeOf kv.1.2 < sizeOf kv.1 := by
      rcases kv with ⟨⟨a, b⟩, hk⟩
      simp
    simp only [JVal.obj.sizeOf_spec]
    omega

/-- Python `str()` as used by the f-string `f"{name}={val}"`: a string is
used verbatim, any other value falls back to its `repr` rendering. -/
def pyStr : JVal → String
  | .str s => s
  | v => pyRepr v

/-- The filter condition of `build_cookie_header_from_list`:
`if name and val is not None` with `name = c.get("name")` and
`val = c.get("value")`. -/
def cookieValid (c : JVal) : Bool := truthy (jget c "name") && !(jget c "value").isNull

/-- The appended part `f"{name}={val}"` of `build_cookie_header_from_list`. -/
def cookiePart (c : JVal) : String := pyStr (jget c "name") ++ "=" ++ pyStr (jget c "value")

/-- Python `"; ".join(parts)`. -/
def joinSemicolon : List String → String
  | [] => ""
  | [p] => p
  | p :: ps => p ++ "; " ++ joinSemicolon ps

/-- Embedding of `build_cookie_header_from_list` (identical in both
scraper files): collect `f"{name}={val}"` for each entry whose `name` is
truthy and whose `value` is not `None`, in input order; return
`"; ".join(parts)` if any part was collected, else `None`. -/
def build_cookie_header_from_list (cookies : List JVal) : Option String :=
  let parts := (cookies.filter cookieValid).map cookiePart
  if parts.isEmpty then none else some (joinSemicolon parts)

/-- A cookie part always contains the `=` separator, hence is non-empty. -/
theorem cookiePart_ne_empty (c : JVal) : cookiePart c ≠ "" := by
  intro h
  have hlen := congrArg String.length h
  simp [cookiePart, String.length_append] at hlen
  exact absurd hlen.1.2 (by decide)

/-- Joining a non-empty list whose head is a non-empty string never yields
the empty string. -/
theorem joinSemicolon_cons_ne_empty (p : String) (ps : List String) (hp : p ≠ "") :
    joinSemicolon (p :: ps) ≠ "" := by
  cases ps with
  | nil => simpa [joinSemicolon] using hp
  | cons q qs =>
    intro h
    have hlen := congrArg String.length h
    simp [joinSemicolon, String.length_append] at hlen
    exact absurd hlen.1.2 (by decide)

/-- Claim C6 (confirmed): `build_cookie_header_from_list` returns no
header exactly when no entry passes the `name`-truthy / `value`-not-None
filter (in particular on the empty list); otherwise it returns the
`name=value` parts of the valid entries joined with `"; "` in input
order; and it never returns the empty string.  The hypothesis restricts
the entries to JSON objects, the cookie-record shape of the data model
(in Python, `.get` on a non-dict entry would raise before any value could
be returned). -/
theorem C6_cookie_header (cookies : List JVal) (_hobj : ∀ c ∈ cookies, c.isObj = true) :
    (build_cookie_header_from_list cookies = none ↔ ∀ c ∈ cookies, cookieValid c = false)
  ∧ (∀ c ∈ cookies, cookieValid c = true →
      build_cookie_header_from_list cookies =
        some (joinSemicolon ((cookies.filter cookieValid).map cookiePart)))
  ∧ build_cookie_header_from_list cookies ≠ some "" := by
  refine ⟨?_, ?_, ?_⟩
  · constructor
    · intro h
      by_contra hc
      push_neg at hc
      obtain ⟨c, hmem, hval⟩ := hc
      have hval' : cookieValid c = true := by simpa using hval
      have hfil : c ∈ cookies.filter cookieValid := List.mem_filter.mpr ⟨hmem, hval'⟩
      have : (cookies.filter cookieValid).map cookiePart ≠ [] := by
        simp only [ne_eq, List.map_eq_nil_iff]
        intro he
        rw [he] at hfil
        simp at hfil
      simp only [build_cookie_header_from_list, List.isEmpty_iff] at h
      split at h
      · exact this (by assumption)
      · simp at h
    · intro h
      have : cookies.filter cookieValid = [] := List.filter_eq_nil_iff.mpr (by
        intro c hc
        simp [h c hc])
      simp [build_cookie_header_from_list, this]
  · intro c hmem hval
    have hfil : c ∈ cookies.filter cookieValid := List.mem_filter.mpr ⟨hmem, hval⟩
    have hne : (cookies.filter cookieValid).map cookiePart ≠ [] := by
      simp only [ne_eq, List.map_eq_nil_iff]
      intro he
      rw [he] at hfil
      simp at hfil
    simp [build_cookie_header_from_list, List.isEmpty_iff, hne]
  · simp only [build_cookie_header_from_list]
    split
    · simp
    · rename_i hne
      rw [List.isEmpty_iff] at hne
      match hp : (cookies.filter cookieValid).map cookiePart, hne with
      | p :: ps, _ =>
        have hpne : p ≠ "" := by
          have : p ∈ (cookies.filter cookieValid).map cookiePart := by rw [hp]; simp
          obtain ⟨c, _, hc⟩ := List.mem_map.mp this
          rw [← hc]
          exact cookiePart_ne_empty c
        simp [joinSemicolon_cons_ne_empty p ps hpne]

/-- Claim C6, witness: a one-entry list with a valid pair yields the
joined header and is not the empty string. -/
theorem C6_witness :
    build_cookie_header_from_list [JVal.obj [("name", JVal.str "a"), ("value", JVal.str "1")]]
      = some "a=1"
  ∧ build_cookie_header_from_list [JVal.obj [("name", JVal.str "a"), ("value", JVal.str "1")]]
      ≠ some "" := by
  have h := C6_cookie_header [JVal.obj [("name", JVal.str "a"), ("value", JVal.str "1")]]
    (by intro c hc; rw [List.mem_singleton] at hc; subst hc; rfl)
  refine ⟨?_, h.2.2⟩
  exact h.2.1 (JVal.obj [("name", JVal.str "a"), ("value", JVal.str "1")])
    (List.mem_singleton_self _) rfl

/-- Value of `int(session_data.get("timestamp", 0))`: the stored number,
or the default `0` when the key is absent.  Session files are written by
`save_flaresolverr_session` with `int(time.time())`, so the timestamp is
numeric; a non-numeric stored value (which would make `int()` raise) is
not modelled. -/
def jgetTimestamp (s : JVal) : Int :=
  match jget s "timestamp" with
  | .num n => n
  | _ => 0

/-- Value of `session_data.get("cookies", [])` in its list shape (the
shape `save_flaresolverr_session` writes). -/
def jgetCookieList (s : JVal) : List JVal :=
  match jget s "cookies" with
  | .arr xs => xs
  | _ => []

/-- Embedding of the session-freshness step of `main`
(`Gravurefit_python.py` lines 344–349; the same check appears in
`bypass_protection`, `JavLibrary_python.py` lines 319–324):
given the loaded session file (`none` when the file is missing or
unparseable), produce the cookie header — `build_cookie_header_from_list`
of the stored cookies exactly when the session is truthy and
`now - timestamp <= window` — together with the session store after the
step.  This code path only reads the session file, so the store is
returned unchanged: a stale session is ignored, not deleted.
`now` is `time.time()` (taken at integer granularity, as in the claim's
boundary instances) and `window` is `FLARE_COOKIE_AGE_SECONDS`. -/
def resolve_session_cookie_header (now window : Int) (session_data : Option JVal) :
    Option String × Option JVal :=
  match session_data with
  | none => (none, none)
  | some s =>
    if truthy s then
      (if now - jgetTimestamp s ≤ window
         then build_cookie_header_from_list (jgetCookieList s)
         else none,
       some s)
    else (none, some s)

/-- A session file as written by `save_flaresolverr_session`:
`{"timestamp": ts, "cookies": cs}`. -/
def mkSession (ts : Int) (cs : List JVal) : JVal :=
  .obj [("timestamp", .num ts), ("cookies", .arr cs)]

/-- Claim C4 (confirmed): a loaded session's cookie header is consulted
exactly when `now - timestamp <= window`; in particular a session with
`timestamp = now - window - 1` is NOT used while one with
`timestamp = now - window + 1` IS; and in both cases the stored session
is returned unchanged (ignored when stale, never deleted). -/
theorem C4_session_freshness (now window ts : Int) (cs : List JVal) :
    resolve_session_cookie_header now window (some (mkSession ts cs)) =
      ((if now - ts ≤ window then build_cookie_header_from_list cs else none),
       some (mkSession ts cs))
  ∧ (resolve_session_cookie_header now window (some (mkSession (now - window - 1) cs))).1 = none
  ∧ (resolve_session_cookie_header now window (some (mkSession (now - window + 1) cs))).1 =
      build_cookie_header_from_list cs := by
  refine ⟨?_, ?_, ?_⟩
  · simp [resolve_session_cookie_header, mkSession, truthy, jgetTimestamp, jgetCookieList,
      jget, kvLookup]
  · simp [resolve_session_cookie_header, mkSession, truthy, jgetTimestamp, jgetCookieList,
      jget, kvLookup]
    omega
  · simp [resolve_session_cookie_header, mkSession, truthy, jgetTimestamp, jgetCookieList,
      jget, kvLookup]
    omega

/-- Outcome of the input-handling prefix of a scraper run:
`exits out` — the scraper prints `out` and finishes normally (process
exit code 0); `proceeds v` — the scraper continues past the input gate
(with the fragment data `v` it will use); `raises` — an uncaught Python
exception escapes, so the process terminates with a traceback and a
non-zero exit code. -/
inductive InputGateResult where
  | exits (out : JVal)
  | proceeds (v : JVal)
  | raises

/-- Embedding of the input handling of `main` in `Gravurefit_python.py`
(lines 323–337).  The argument is the outcome of `json.loads` on stdin
(`none` when parsing raised).  A parse failure is caught and `{}` is
printed; a parsed JSON object without a truthy `"url"` prints `{}`; a
truthy `"url"` proceeds.  A parsed NON-object (e.g. a JSON string or
list) reaches `FRAGMENT.get("url")`, which raises `AttributeError`
outside any try block. -/
def gravure_input_gate (stdin : Option JVal) : InputGateResult :=
  match stdin with
  | none => .exits (.obj [])
  | some fragment =>
    match fragment with
    | .obj _ =>
      if truthy (jget fragment "url") then .proceeds (jget fragment "url")
      else .exits (.obj [])
    | _ => .raises

/-- Embedding of the module-level input handling of
`JavLibrary_python.py` (lines 523–536).  `FRAGMENT =
json.loads(sys.stdin.read())` is NOT wrapped in any try block, so an
unparseable stdin raises `json.JSONDecodeError` and the process dies
non-zero; a parsed non-object raises `AttributeError` at
`FRAGMENT.get("name")`; a parsed object proceeds into the orchestration
flow with the fragment. -/
def javlib_fragment_gate (stdin : Option JVal) : InputGateResult :=
  match stdin with
  | none => .raises
  | some fragment =>
    match fragment with
    | .obj _ => .proceeds fragment
    | _ => .raises

/-- Claim C1 (corrected), amended: on unparseable stdin the Gravurefit
scraper prints `{}` and exits 0, but the JavLibrary scraper raises (its
module-level `json.loads` is unguarded); on a JSON object lacking a
truthy `url` the Gravurefit scraper prints `{}` and exits 0, and with a
truthy `url` it proceeds; on stdin that parses to a NON-object JSON value
both scrapers raise (`FRAGMENT.get` on a non-dict) instead of printing
`{}`. -/
theorem C1_input_gate (stdin : Option JVal) :
    gravure_input_gate none = .exits (.obj [])
  ∧ (∀ kvs, stdin = some (.obj kvs) → truthy (jget (.obj kvs) "url") = false →
      gravure_input_gate stdin = .exits (.obj []))
  ∧ (∀ kvs, stdin = some (.obj kvs) → truthy (jget (.obj kvs) "url") = true →
      gravure_input_gate stdin = .proceeds (jget (.obj kvs) "url"))
  ∧ (∀ s, stdin = some (.str s) →
      gravure_input_gate stdin = .raises ∧ javlib_fragment_gate stdin = .raises)
  ∧ javlib_fragment_gate none = .raises := by
  refine ⟨rfl, ?_, ?_, ?_, rfl⟩
  · intro kvs hs hu
    subst hs
    simp [gravure_input_gate, hu]
  · intro kvs hs hu
    subst hs
    simp [gravure_input_gate, hu]
  · intro s hs
    subst hs
    exact ⟨rfl, rfl⟩

/-- Claim C1, witness: a parsed empty-object fragment (no identifier)
makes the Gravurefit scraper print `{}` and exit 0. -/
theorem C1_witness :
    gravure_input_gate (some (JVal.obj [])) = InputGateResult.exits (JVal.obj []) :=
  (C1_input_gate (some (JVal.obj []))).2.1 [] rfl (by decide)

/-- Claim C1, counterexample to the claim as stated: the stdin input
`"hello"` (a well-formed JSON string, hence parseable but without a
usable identifier) makes BOTH scrapers raise an uncaught exception
instead of printing `{}`; and unparseable stdin already makes the
JavLibrary scraper raise. -/
theorem C1_counterexample :
    gravure_input_gate (some (JVal.str "hello")) = InputGateResult.raises
  ∧ javlib_fragment_gate (some (JVal.str "hello")) = InputGateResult.raises
  ∧ javlib_fragment_gate none = InputGateResult.raises := ⟨rfl, rfl, rfl⟩

/-- Whitespace as recognised by Python's `str.strip()` and the regex
class `\s` (ASCII subset; the rarely-seen further Unicode whitespace
characters are not modelled — none occurs in the claims). -/
def isPyWs (c : Char) : Bool :=
  c == ' ' || c == '\t' || c == '\n' || c == '\r' || c == '\x0b' || c == '\x0c'

/-- Python `str.strip()` on the character list of a string. -/
def pyStripList (cs : List Char) : List Char :=
  ((cs.dropWhile isPyWs).reverse.dropWhile isPyWs).reverse

/-- Python `str.strip()`. -/
def pyStrip (s : String) : String := String.mk (pyStripList s.data)

/-- The three dash variants of the performer-separator regex class
`[-－—]` (ASCII hyphen, fullwidth hyphen-minus U+FF0D, em dash U+2014). -/
def isDashChar (c : Char) : Bool := c == '-' || c == '－' || c == '—'

/-- The regex class `[ \t]`. -/
def isSpaceTab (c : Char) : Bool := c == ' ' || c == '\t'

/-- Embedding of `re.sub(r'^[^－\-\—]+[ \t]*[-－\—][ \t]*', '', t)`:
remove a leading non-empty run of non-dash characters, the first dash,
and any spaces/tabs after it.  The greedy `[^...]+` necessarily consumes
the whole run up to the first dash (space/tab are members of the negated
class), so the removal below is exactly the regex's unique match; when
the string starts with a dash or contains none, there is no match and
the input is returned unchanged. -/
def stripPerfSepList (cs : List Char) : List Char :=
  let pre := cs.takeWhile (fun c => !isDashChar c)
  if pre.isEmpty then cs
  else
    match cs.drop pre.length with
    | _ :: rest => rest.dropWhile isSpaceTab
    | [] => cs

/-- String form of `stripPerfSepList`. -/
def stripPerfSep (s : String) : String := String.mk (stripPerfSepList s.data)

/-- The regex class `[A-Za-z0-9_\-()]` of the trailing-code pattern. -/
def isCodeSfxChar (c : Char) : Bool :=
  c.isAlpha || c.isDigit || c == '_' || c == '-' || c == '(' || c == ')'

/-- Embedding of `re.sub(r'\s*/\s*[A-Za-z0-9_\-()]+$', '', t)`: working
from the end, take the maximal trailing run of code characters (the
match's token run is forced to be this run: a shorter run would be
preceded by a token character, which can match neither `/` nor `\s`),
skip whitespace, require a `/`, and drop the whitespace before it
(leftmost match start).  Anything else leaves the input unchanged. -/
def stripCodeSfxList (cs : List Char) : List Char :=
  let r := cs.reverse
  let toks := r.takeWhile isCodeSfxChar
  if toks.isEmpty then cs
  else
    match (r.drop toks.length).dropWhile isPyWs with
    | c :: rest => if c == '/' then (rest.dropWhile isPyWs).reverse else cs
    | [] => cs

/-- String form of `stripCodeSfxList`. -/
def stripCodeSfx (s : String) : String := String.mk (stripCodeSfxList s.data)

/-- The regex class `[A-Za-z0-9_\-]` of the leading-code pattern. -/
def isCodeLeadChar (c : Char) : Bool :=
  c.isAlpha || c.isDigit || c == '_' || c == '-'

/-- Embedding of `re.sub(r'^[A-Za-z0-9_\-]+[:：]\s*', '', t)`: remove a
leading non-empty maximal run of code characters followed by `:` or `：`
and any whitespace after it (the colon is not a code character, so only
the maximal run can be followed by a colon — no backtracking case
exists).  Otherwise the input is unchanged. -/
def stripCodeLeadList (cs : List Char) : List Char :=
  let pre := cs.takeWhile isCodeLeadChar
  if pre.isEmpty then cs
  else
    match cs.drop pre.length with
    | c :: rest => if c == ':' || c == '：' then rest.dropWhile isPyWs else cs
    | [] => cs

/-- String form of `stripCodeLeadList`. -/
def stripCodeLead (s : String) : String := String.mk (stripCodeLeadList s.data)

/-- Embedding of `normalize_title` (`Gravurefit_python.py` lines
199–209): `None`/empty input yields `None`; otherwise strip, remove the
leading performer prefix, the trailing `" / CODE"`, the leading
`"CODE:"` / `"CODE："` — each followed by `.strip()` — and return `None`
if the result is empty (`return t or None`). -/
def normalize_title (raw_title : Option String) : Option String :=
  match raw_title with
  | none => none
  | some r =>
    if r == "" then none
    else
      let t1 := pyStrip r
      let t2 := pyStrip (stripPerfSep t1)
      let t3 := pyStrip (stripCodeSfx t2)
      let t4 := pyStrip (stripCodeLead t3)
      if t4 == "" then none else some t4

/-- Embedding of `normalize_gravure_title` (`JavLibrary_python.py` lines
368–378), which is textually identical to `normalize_title`. -/
def normalize_gravure_title (raw_title : Option String) : Option String :=
  normalize_title raw_title

/-- Claim C8 (confirmed): title normalization strips, in this order, the
leading performer prefix up to a dash variant, then the trailing
`" / CODE"`, then the leading `"CODE："`, and on the claim's example
produces `"Scene Title"`.  The first three conjuncts exhibit the three
pipeline stages on the example; the last is the claimed end-to-end
equality. -/
theorem C8_normalize_example :
    stripPerfSep "本田瞳 - LULU-255：Scene Title / LULU255" = "LULU-255：Scene Title / LULU255"
  ∧ stripCodeSfx "LULU-255：Scene Title / LULU255" = "LULU-255：Scene Title"
  ∧ stripCodeLead "LULU-255：Scene Title" = "Scene Title"
  ∧ normalize_title (some "本田瞳 - LULU-255：Scene Title / LULU255") = some "Scene Title" :=
  ⟨rfl, rfl, rfl, rfl⟩

/-- Claim C9 (corrected), amended: normalization is idempotent on
non-empty stripped titles to which none of the three strip patterns
applies — e.g. `"Scene Title"` — but NOT on its whole range: a
normalized title may itself still contain a dash separator (or a slash
suffix, or a leading colon code) and be stripped again, see the
counterexample. -/
theorem C9_idempotent_on_pattern_free (t : String) (h0 : t ≠ "")
    (h1 : pyStrip t = t) (h2 : stripPerfSep t = t)
    (h3 : stripCodeSfx t = t) (h4 : stripCodeLead t = t) :
    normalize_title (some t) = some t := by
  have hb : (t == "") = false := beq_eq_false_iff_ne.mpr h0
  simp [normalize_title, hb, h1, h2, h3, h4]

/-- Claim C9, witness: the spec's own example `"Scene Title"` is a fixed
point of normalization. -/
theorem C9_witness : normalize_title (some "Scene Title") = some "Scene Title" :=
  C9_idempotent_on_pattern_free "Scene Title" (by decide) rfl rfl rfl rfl

/-- Claim C9, counterexample to idempotence on the range of
normalization: `"B - C"` is in the range (it is `normalize("A - B - C")`)
yet normalizing it again gives `"C"`, not `"B - C"`. -/
theorem C9_counterexample :
    normalize_title (some "A - B - C") = some "B - C"
  ∧ normalize_title (some "B - C") = some "C"
  ∧ normalize_title (some "B - C") ≠ some "B - C" :=
  ⟨rfl, rfl, by decide⟩

/-- Numeric value of an ASCII digit character. -/
def digitVal (c : Char) : Nat := c.toNat - 48

/-- Matcher for the regex fragment `(\d{1,2})sep` at the head of a
character list, with the greedy two-digit attempt first and one-digit
backtracking, exactly as the regex engine tries them; returns the
numeric value of the digits and the remainder after `sep`.  (`\d` is
modelled as ASCII digits; non-ASCII Unicode decimal digits are not
modelled.) -/
def matchNumThen (sep : Char) : List Char → Option (Nat × List Char)
  | c1 :: c2 :: c3 :: rest =>
    if c1.isDigit && c2.isDigit && c3 == sep then
      some (digitVal c1 * 10 + digitVal c2, rest)
    else if c1.isDigit && c2 == sep then
      some (digitVal c1, c3 :: rest)
    else none
  | [c1, c2] => if c1.isDigit && c2 == sep then some (digitVal c1, []) else none
  | _ => none

/-- A successful `matchNumThen` consumes at least the separator and one
digit, so the remainder is strictly shorter. -/
theorem matchNumThen_length (sep : Char) (cs : List Char) (v : Nat) (r : List Char)
    (h : matchNumThen sep cs = some (v, r)) : r.length < cs.length := by
  match cs with
  | [] => simp [matchNumThen] at h
  | [c1] => simp [matchNumThen] at h
  | [c1, c2] =>
    simp only [matchNumThen] at h
    split at h
    · cases h
      simp
    · simp at h
  | c1 :: c2 :: c3 :: rest =>
    simp only [matchNumThen] at h
    split at h
    · cases h
      simp only [List.length_cons]
      omega
    · split at h
      · cases h
        simp only [List.length_cons]
        omega
      · simp at h

/-- Matcher for `DATE_REGEX = (\d{4})年\s*(\d{1,2})月\s*(\d{1,2})日` at the
head of a character list: exactly four digits, `年`, optional whitespace,
one or two digits, `月`, optional whitespace, one or two digits, `日`.
(The greedy `\s*` cannot backtrack usefully because whitespace is never a
digit.)  Returns the `(year, month, day)` groups as numbers together with
the remainder after the match. -/
def matchLocAt : List Char → Option ((Nat × Nat × Nat) × List Char)
  | c1 :: c2 :: c3 :: c4 :: c5 :: rest =>
    if c1.isDigit && c2.isDigit && c3.isDigit && c4.isDigit && c5 == '年' then
      (matchNumThen '月' (rest.dropWhile isPyWs)).bind fun mo2 =>
        (matchNumThen '日' (mo2.2.dropWhile isPyWs)).bind fun d2 =>
          some ((digitVal c1 * 1000 + digitVal c2 * 100 + digitVal c3 * 10 + digitVal c4,
                 mo2.1, d2.1), d2.2)
    else none
  | _ => none

/-- A successful localized-date match consumes at least five characters,
so the remainder is strictly shorter. -/
theorem matchLocAt_length (cs : List Char) (t : Nat × Nat × Nat) (rem : List Char)
    (h : matchLocAt cs = some (t, rem)) : rem.length < cs.length := by
  match cs with
  | [] => simp [matchLocAt] at h
  | [_] => simp [matchLocAt] at h
  | [_, _] => simp [matchLocAt] at h
  | [_, _, _] => simp [matchLocAt] at h
  | [_, _, _, _] => simp [matchLocAt] at h
  | c1 :: c2 :: c3 :: c4 :: c5 :: rest =>
    simp only [matchLocAt] at h
    split at h
    · simp only [Option.bind_eq_some] at h
      obtain ⟨⟨mo, rest2⟩, h1, h⟩ := h
      obtain ⟨⟨d, rest3⟩, h2, h⟩ := h
      simp only [Option.some.injEq, Prod.mk.injEq] at h
      obtain ⟨-, hrem⟩ := h
      have hlenrem := congrArg List.length hrem
      have h2x : matchNumThen (Char.ofNat 26085) (rest2.dropWhile isPyWs) = some (d, rest3) := h2
      have l1 : (rest.dropWhile isPyWs).length ≤ rest.length :=
        (List.dropWhile_sublist _).length_le
      have l2 := matchNumThen_length _ _ _ _ h1
      have l3 : (rest2.dropWhile isPyWs).length ≤ rest2.length :=
        (List.dropWhile_sublist _).length_le
      have l4 := matchNumThen_length _ _ _ _ h2x
      simp only [List.length_cons]
      omega
    · simp at h

/-- Scanning loop of `DATE_REGEX.finditer(text)`: try a match at each
position left to right; on a hit, emit the groups and continue after the
match (matches never overlap), else advance one character.  The fuel
argument only bounds the number of iterations; since every iteration
strictly shrinks the list (see `matchLocAt_length`), starting fuel at the
list length never cuts the scan short — `scanLocGo_congr` below makes
this fuel-independence precise. -/
def scanLocGo : Nat → List Char → List (Nat × Nat × Nat)
  | 0, _ => []
  | _ + 1, [] => []
  | fuel + 1, c :: rest =>
    match matchLocAt (c :: rest) with
    | some (t, rem) => t :: scanLocGo fuel rem
    | none => scanLocGo fuel rest

/-- All matches of `DATE_REGEX` in a character list, textual order. -/
def scanLoc (cs : List Char) : List (Nat × Nat × Nat) := scanLocGo cs.length cs

/-- Scanning the empty list yields no match, whatever the fuel. -/
theorem scanLocGo_nil (fuel : Nat) : scanLocGo fuel [] = [] := by
  cases fuel <;> rfl

/-- Fuel adequacy: any fuel at least the list length gives the same scan
result, so `scanLoc`'s choice of `cs.length` is canonical. -/
theorem scanLocGo_congr (fuel1 : Nat) :
    ∀ fuel2 cs, cs.length ≤ fuel1 → List.length cs ≤ fuel2 →
      scanLocGo fuel1 cs = scanLocGo fuel2 cs := by
  induction fuel1 with
  | zero =>
    intro fuel2 cs h1 _
    have : cs = [] := List.length_eq_zero.mp (Nat.le_zero.mp h1)
    subst this
    rw [scanLocGo_nil, scanLocGo_nil]
  | succ f ih =>
    intro fuel2 cs h1 h2
    match cs with
    | [] => rw [scanLocGo_nil, scanLocGo_nil]
    | c :: rest =>
      match fuel2 with
      | 0 => simp at h2
      | f2 + 1 =>
        simp only [List.length_cons] at h1 h2
        cases hm : matchLocAt (c :: rest) with
        | some tr =>
          obtain ⟨t, rem⟩ := tr
          have hlt := matchLocAt_length _ _ _ hm
          simp only [List.length_cons] at hlt
          simp only [scanLocGo, hm]
          rw [ih f2 rem (by omega) (by omega)]
        | none =>
          simp only [scanLocGo, hm]
          exact ih f2 rest (by omega) (by omega)

/-- Matcher for the ISO pattern `(\d{4}-\d{2}-\d{2})` at the head of a
character list: exact digit counts, no backtracking possible. -/
def matchIsoAt : List Char → Option ((Nat × Nat × Nat) × List Char)
  | c1 :: c2 :: c3 :: c4 :: d1 :: m1 :: m2 :: d2 :: e1 :: e2 :: rest =>
    if c1.isDigit && c2.isDigit && c3.isDigit && c4.isDigit && d1 == '-' &&
       m1.isDigit && m2.isDigit && d2 == '-' && e1.isDigit && e2.isDigit then
      some ((digitVal c1 * 1000 + digitVal c2 * 100 + digitVal c3 * 10 + digitVal c4,
             digitVal m1 * 10 + digitVal m2, digitVal e1 * 10 + digitVal e2), rest)
    else none
  | _ => none

/-- A successful ISO match consumes exactly ten characters. -/
theorem matchIsoAt_length (cs : List Char) (t : Nat × Nat × Nat) (rem : List Char)
    (h : matchIsoAt cs = some (t, rem)) : rem.length < cs.length := by
  match cs with
  | [] | [_] | [_,_] | [_,_,_] | [_,_,_,_] | [_,_,_,_,_] | [_,_,_,_,_,_]
  | [_,_,_,_,_,_,_] | [_,_,_,_,_,_,_,_] | [_,_,_,_,_,_,_,_,_] => simp [matchIsoAt] at h
  | c1 :: c2 :: c3 :: c4 :: d1 :: m1 :: m2 :: d2 :: e1 :: e2 :: rest =>
    simp only [matchIsoAt] at h
    split at h
    · cases h
      simp only [List.length_cons]
      omega
    · simp at h

/-- Scanning loop of `re.findall(r"(\d{4}-\d{2}-\d{2})", text)`, with the
same fuel discipline as `scanLocGo`. -/
def scanIsoGo : Nat → List Char → List (Nat × Nat × Nat)
  | 0, _ => []
  | _ + 1, [] => []
  | fuel + 1, c :: rest =>
    match matchIsoAt (c :: rest) with
    | some (t, rem) => t :: scanIsoGo fuel rem
    | none => scanIsoGo fuel rest

/-- All ISO-notation matches in a character list, textual order, as
`(year, month, day)` numbers (the source later re-parses the matched
strings; the digits are carried directly here). -/
def scanIso (cs : List Char) : List (Nat × Nat × Nat) := scanIsoGo cs.length cs

/-- Scanning the empty list yields no ISO match, whatever the fuel. -/
theorem scanIsoGo_nil (fuel : Nat) : scanIsoGo fuel [] = [] := by
  cases fuel <;> rfl

/-- Fuel adequacy for the ISO scan. -/
theorem scanIsoGo_congr (fuel1 : Nat) :
    ∀ fuel2 cs, cs.length ≤ fuel1 → List.length cs ≤ fuel2 →
      scanIsoGo fuel1 cs = scanIsoGo fuel2 cs := by
  induction fuel1 with
  | zero =>
    intro fuel2 cs h1 _
    have : cs = [] := List.length_eq_zero.mp (Nat.le_zero.mp h1)
    subst this
    rw [scanIsoGo_nil, scanIsoGo_nil]
  | succ f ih =>
    intro fuel2 cs h1 h2
    match cs with
    | [] => rw [scanIsoGo_nil, scanIsoGo_nil]
    | c :: rest =>
      match fuel2 with
      | 0 => simp at h2
      | f2 + 1 =>
        simp only [List.length_cons] at h1 h2
        cases hm : matchIsoAt (c :: rest) with
        | some tr =>
          obtain ⟨t, rem⟩ := tr
          have hlt := matchIsoAt_length _ _ _ hm
          simp only [List.length_cons] at hlt
          simp only [scanIsoGo, hm]
          rw [ih f2 rem (by omega) (by omega)]
        | none =>
          simp only [scanIsoGo, hm]
          exact ih f2 rest (by omega) (by omega)

/-- Gregorian leap-year rule, as implemented by Python's `datetime`. -/
def isLeapYear (y : Nat) : Bool := (y % 4 == 0 && y % 100 != 0) || y % 400 == 0

/-- Days in a month, as enforced by `datetime(...)` / `fromisoformat` /
`strptime`. -/
def daysInMonth (y m : Nat) : Nat :=
  if m = 2 then (if isLeapYear y then 29 else 28)
  else if m = 4 ∨ m = 6 ∨ m = 9 ∨ m = 11 then 30 else 31

/-- Calendar validity of `(y, m, d)`: the condition under which
`datetime(int(y), int(mo), int(d))` (localized branch) and
`datetime.fromisoformat("YYYY-MM-DD")` (ISO branch of the Gravurefit
variant) succeed rather than raise: year 1–9999, month 1–12, day within
the month. -/
def isValidDate (y m d : Nat) : Bool :=
  decide (1 ≤ y) && decide (y ≤ 9999) && decide (1 ≤ m) && decide (m ≤ 12) &&
  decide (1 ≤ d) && decide (d ≤ daysInMonth y m)

/-- `isValidDate` on a match triple. -/
def validTriple (t : Nat × Nat × Nat) : Bool := isValidDate t.1 t.2.1 t.2.2

/-- Chronological (lexicographic) order on `(y, m, d)` triples — exactly
how Python compares the collected `datetime` objects (all share midnight
UTC) and how `sorted` orders the collected tuples. -/
def dateLeProp (a b : Nat × Nat × Nat) : Prop :=
  a.1 < b.1 ∨ (a.1 = b.1 ∧ (a.2.1 < b.2.1 ∨ (a.2.1 = b.2.1 ∧ a.2.2 ≤ b.2.2)))

instance (a b : Nat × Nat × Nat) : Decidable (dateLeProp a b) := by
  unfold dateLeProp
  infer_instance

/-- Binary minimum for `min(dates)` / `sorted(dates)[0]` (ties keep the
earlier element, whose value is identical anyway). -/
def minDate (a b : Nat × Nat × Nat) : Nat × Nat × Nat := if dateLeProp a b then a else b

/-- Two-digit zero padding, Python's `%m` / `%d` / `{:02d}`. -/
def pad2 (n : Nat) : String := if n < 10 then "0" ++ toString n else toString n

/-- The output format `strftime("%Y-%m-%d")` (Gravurefit variant) and
`f"{y}-{m:02d}-{d:02d}"` (JavLibrary variant): both zero-pad month and
day to two digits; the year is printed unpadded (CPython delegates `%Y`
to the platform; glibc prints it unpadded, which coincides with the
f-string — and every year is four digits here except matches with
leading-zero years). -/
def formatDate (t : Nat × Nat × Nat) : String :=
  toString t.1 ++ "-" ++ pad2 t.2.1 ++ "-" ++ pad2 t.2.2

/-- The `dates` list built by `find_earliest_date_in_text`
(`Gravurefit_python.py` lines 211–230): all localized matches whose
`datetime(...)` construction succeeds, followed by all ISO matches whose
`fromisoformat` parse succeeds, in textual order per notation. -/
def collected_valid_dates (s : String) : List (Nat × Nat × Nat) :=
  (scanLoc s.data).filter validTriple ++ (scanIso s.data).filter validTriple

/-- Embedding of `find_earliest_date_in_text` (`Gravurefit_python.py`
lines 211–230): `None` when no valid date was collected, else the
minimum of the collected dates formatted `YYYY-MM-DD`. -/
def find_earliest_date_in_text (s : String) : Option String :=
  match collected_valid_dates s with
  | [] => none
  | d :: ds => some (formatDate (ds.foldl minDate d))

/-- The `dates` list built by `find_earliest_date_from_text`
(`JavLibrary_python.py` lines 380–403): localized matches are validated
through `time.strptime`, but ISO matches are appended UNVALIDATED — the
`try` around `iso.split("-")` can never fail on a regex match. -/
def collected_dates_jav (s : String) : List (Nat × Nat × Nat) :=
  (scanLoc s.data).filter validTriple ++ scanIso s.data

/-- Embedding of `find_earliest_date_from_text` (`JavLibrary_python.py`
lines 380–403): early `None` on empty text, else `None` when nothing was
collected, else `sorted(dates)[0]` formatted. -/
def find_earliest_date_from_text (s : String) : Option String :=
  if s == "" then none
  else
    match collected_dates_jav s with
    | [] => none
    | d :: ds => some (formatDate (ds.foldl minDate d))

/-- Chronological order is reflexive. -/
theorem dateLeProp_refl (a : Nat × Nat × Nat) : dateLeProp a a := by
  unfold dateLeProp
  omega

/-- Chronological order is total. -/
theorem dateLeProp_total (a b : Nat × Nat × Nat) : dateLeProp a b ∨ dateLeProp b a := by
  unfold dateLeProp
  omega

/-- Chronological order is transitive. -/
theorem dateLeProp_trans {a b c : Nat × Nat × Nat}
    (h1 : dateLeProp a b) (h2 : dateLeProp b c) : dateLeProp a c := by
  unfold dateLeProp at h1 h2 ⊢
  omega

/-- Chronological order is antisymmetric. -/
theorem dateLeProp_antisymm {a b : Nat × Nat × Nat}
    (h1 : dateLeProp a b) (h2 : dateLeProp b a) : a = b := by
  obtain ⟨a1, a2, a3⟩ := a
  obtain ⟨b1, b2, b3⟩ := b
  unfold dateLeProp at h1 h2
  simp only [Prod.mk.injEq]
  simp only at h1 h2
  omega

/-- `minDate a b` is at most `a`. -/
theorem minDate_le_left (a b : Nat × Nat × Nat) : dateLeProp (minDate a b) a := by
  unfold minDate
  split
  · exact dateLeProp_refl a
  · rename_i hn
    rcases dateLeProp_total a b with h | h
    · exact absurd h hn
    · exact h

/-- `minDate a b` is at most `b`. -/
theorem minDate_le_right (a b : Nat × Nat × Nat) : dateLeProp (minDate a b) b := by
  unfold minDate
  split
  · assumption
  · exact dateLeProp_refl b

/-- `minDate` picks one of its arguments. -/
theorem minDate_cases (a b : Nat × Nat × Nat) : minDate a b = a ∨ minDate a b = b := by
  unfold minDate
  split
  · exact Or.inl rfl
  · exact Or.inr rfl

/-- The fold of `minDate` over a list is an element of seed-plus-list. -/
theorem foldl_minDate_mem (l : List (Nat × Nat × Nat)) :
    ∀ d, l.foldl minDate d ∈ d :: l := by
  induction l with
  | nil => intro d; simp
  | cons x xs ih =>
    intro d
    simp only [List.foldl_cons]
    have hm := ih (minDate d x)
    rcases List.mem_cons.mp hm with h | h
    · rw [h]
      rcases minDate_cases d x with h2 | h2 <;> rw [h2]
      · exact List.mem_cons_self _ _
      · exact List.mem_cons_of_mem _ (List.mem_cons_self _ _)
    · exact List.mem_cons_of_mem _ (List.mem_cons_of_mem _ h)

/-- The fold of `minDate` over a list is a lower bound of seed-plus-list. -/
theorem foldl_minDate_le (l : List (Nat × Nat × Nat)) :
    ∀ d, ∀ x ∈ d :: l, dateLeProp (l.foldl minDate d) x := by
  induction l with
  | nil =>
    intro d x hx
    simp at hx
    subst hx
    exact dateLeProp_refl x
  | cons y ys ih =>
    intro d x hx
    simp only [List.foldl_cons]
    have hhead := ih (minDate d y) (minDate d y) (List.mem_cons_self _ _)
    rcases List.mem_cons.mp hx with h | h
    · subst h
      exact dateLeProp_trans hhead (minDate_le_left x y)
    · rcases List.mem_cons.mp h with h2 | h2
      · subst h2
        exact dateLeProp_trans hhead (minDate_le_right d x)
      · exact ih (minDate d y) x (List.mem_cons_of_mem _ h2)

/-- Claim C3 (corrected), amended for the Gravurefit variant, which the
claim describes accurately: `find_earliest_date_in_text` returns no date
exactly when no valid calendar date was collected from the two notations;
any returned date is the formatted chronological minimum of the collected
valid dates; and the result depends only on the collected valid dates up
to permutation — i.e. not on their textual order.  (The JavLibrary
variant `find_earliest_date_from_text` violates the validity part of the
claim: see the counterexample.) -/
theorem C3_earliest_date (s : String) :
    (find_earliest_date_in_text s = none ↔ collected_valid_dates s = [])
  ∧ (∀ out, find_earliest_date_in_text s = some out →
      ∃ t, t ∈ collected_valid_dates s ∧ out = formatDate t ∧
        ∀ u ∈ collected_valid_dates s, dateLeProp t u)
  ∧ (∀ s2, List.Perm (collected_valid_dates s) (collected_valid_dates s2) →
      find_earliest_date_in_text s = find_earliest_date_in_text s2) := by
  refine ⟨?_, ?_, ?_⟩
  · cases hc : collected_valid_dates s <;> simp [find_earliest_date_in_text, hc]
  · intro out h
    cases hc : collected_valid_dates s with
    | nil => simp [find_earliest_date_in_text, hc] at h
    | cons d ds =>
      simp only [find_earliest_date_in_text, hc, Option.some.injEq] at h
      refine ⟨ds.foldl minDate d, ?_, h.symm, ?_⟩
      · exact foldl_minDate_mem ds d
      · intro u hu
        exact foldl_minDate_le ds d u hu
  · intro s2 hperm
    cases hc1 : collected_valid_dates s with
    | nil =>
      rw [hc1] at hperm
      have hc2 : collected_valid_dates s2 = [] := hperm.symm.eq_nil
      simp [find_earliest_date_in_text, hc1, hc2]
    | cons d ds =>
      cases hc2 : collected_valid_dates s2 with
      | nil =>
        rw [hc1, hc2] at hperm
        exact absurd hperm.eq_nil (by simp)
      | cons e es =>
        rw [hc1, hc2] at hperm
        have m1mem := foldl_minDate_mem ds d
        have m2mem := foldl_minDate_mem es e
        have le1 : dateLeProp (ds.foldl minDate d) (es.foldl minDate e) :=
          foldl_minDate_le ds d _ (hperm.mem_iff.mpr m2mem)
        have le2 : dateLeProp (es.foldl minDate e) (ds.foldl minDate d) :=
          foldl_minDate_le es e _ (hperm.mem_iff.mp m1mem)
        have heq : ds.foldl minDate d = es.foldl minDate e :=
          dateLeProp_antisymm le1 le2
        simp [find_earliest_date_in_text, hc1, hc2, heq]

/-- Claim C3, witness: a text with an ISO date and a chronologically
earlier localized date, and the same dates in swapped textual order and
swapped notations, both yield the earliest date `2019-03-01` — applied
through the amended theorem's permutation clause. -/
theorem C3_witness :
    find_earliest_date_in_text "2019-05-01 2019年3月1日" =
      find_earliest_date_in_text "2019年5月1日 2019-03-01"
  ∧ find_earliest_date_in_text "2019年5月1日 2019-03-01" = some "2019-03-01" := by
  constructor
  · exact (C3_earliest_date "2019-05-01 2019年3月1日").2.2 "2019年5月1日 2019-03-01" (by decide)
  · decide

/-- Claim C3, counterexample to the claim as stated over both files: on
the text `"2019-13-45"` the JavLibrary variant returns the invalid
calendar date `2019-13-45` instead of skipping it (its ISO branch never
validates), while the Gravurefit variant correctly skips it. -/
theorem C3_counterexample :
    find_earliest_date_from_text "2019-13-45" = some "2019-13-45"
  ∧ validTriple (2019, 13, 45) = false
  ∧ find_earliest_date_in_text "2019-13-45" = none := ⟨by decide, by decide, by decide⟩

/-- The head surviving `dropWhile` fails the predicate. -/
theorem head_dropWhile_false (p : Char → Bool) (l : List Char) (a : Char)
    (h : (l.dropWhile p).head? = some a) : p a = false := by
  induction l with
  | nil => simp [List.dropWhile] at h
  | cons x xs ih =>
    rw [List.dropWhile_cons] at h
    split at h
    · exact ih h
    · rename_i hx
      simp only [List.head?_cons, Option.some.injEq] at h
      subst h
      simpa using hx

/-- `dropWhile` is the identity when the head already fails the
predicate. -/
theorem dropWhile_eq_self_of_head (p : Char → Bool) (l : List Char)
    (h : ∀ a, l.head? = some a → p a = false) : l.dropWhile p = l := by
  cases l with
  | nil => rfl
  | cons x xs =>
    rw [List.dropWhile_cons, if_neg]
    simp [h x rfl]

/-- A non-empty `dropWhile` keeps the last element of the list. -/
theorem getLast_dropWhile_eq (p : Char → Bool) (l : List Char)
    (h : l.dropWhile p ≠ []) : (l.dropWhile p).getLast? = l.getLast? := by
  induction l with
  | nil => simp [List.dropWhile] at h
  | cons x xs ih =>
    rw [List.dropWhile_cons]
    rw [List.dropWhile_cons] at h
    split at h
    · rename_i hx
      rw [if_pos hx]
      have hxs : xs ≠ [] := by
        intro he
        subst he
        simp [List.dropWhile] at h
      rw [ih h]
      cases xs with
      | nil => exact absurd rfl hxs
      | cons y ys => rw [List.getLast?_cons_cons]
    · rename_i hx
      rw [if_neg hx]

/-- Stripping is idempotent on character lists. -/
theorem pyStripList_idem (l : List Char) : pyStripList (pyStripList l) = pyStripList l := by
  by_cases hr : pyStripList l = []
  · rw [hr]
    rfl
  · have hAr : (pyStripList l).dropWhile isPyWs = pyStripList l := by
      apply dropWhile_eq_self_of_head
      intro a ha
      unfold pyStripList at ha hr
      rw [List.head?_reverse] at ha
      have hne : (l.dropWhile isPyWs).reverse.dropWhile isPyWs ≠ [] := by
        intro he
        rw [he] at hr
        simp at hr
      rw [getLast_dropWhile_eq _ _ hne, List.getLast?_reverse] at ha
      exact head_dropWhile_false _ _ _ ha
    have hArev : (pyStripList l).reverse.dropWhile isPyWs = (pyStripList l).reverse := by
      apply dropWhile_eq_self_of_head
      intro a ha
      unfold pyStripList at ha
      rw [List.reverse_reverse] at ha
      exact head_dropWhile_false _ _ _ ha
    have hdef : pyStripList (pyStripList l) =
        (((pyStripList l).dropWhile isPyWs).reverse.dropWhile isPyWs).reverse := rfl
    rw [hdef, hAr, hArev, List.reverse_reverse]

/-- Python `str.strip()` is idempotent. -/
theorem pyStrip_idem (s : String) : pyStrip (pyStrip s) = pyStrip s := by
  unfold pyStrip
  exact congrArg String.mk (pyStripList_idem s.data)

/-- The tag-deduplication loop of `extract_gravure_fields`: a `seen` set
(accumulated as a list) and an output keeping the first occurrence of
each tag, in order. -/
def dedupFirstGo (seen : List String) : List String → List String
  | [] => []
  | t :: ts => if t ∈ seen then dedupFirstGo seen ts else t :: dedupFirstGo (t :: seen) ts

/-- Order-preserving first-occurrence deduplication (`seen = set()` /
`dedup = []` loop in the source). -/
def dedupFirst (l : List String) : List String := dedupFirstGo [] l

/-- The deduplicated list has no duplicates and its members come from the
input (and were not in `seen`). -/
theorem dedupFirstGo_spec (l : List String) :
    ∀ seen, (dedupFirstGo seen l).Nodup ∧
      ∀ t ∈ dedupFirstGo seen l, t ∉ seen ∧ t ∈ l := by
  induction l with
  | nil => intro seen; simp [dedupFirstGo]
  | cons x xs ih =>
    intro seen
    simp only [dedupFirstGo]
    split
    · obtain ⟨h1, h2⟩ := ih seen
      exact ⟨h1, fun t ht => ⟨(h2 t ht).1, List.mem_cons_of_mem _ (h2 t ht).2⟩⟩
    · rename_i hx
      obtain ⟨h1, h2⟩ := ih (x :: seen)
      constructor
      · refine List.nodup_cons.mpr ⟨?_, h1⟩
        intro hmem
        exact absurd (List.mem_cons_self x seen) (h2 x hmem).1
      · intro t ht
        rcases List.mem_cons.mp ht with h | h
        · subst h
          exact ⟨hx, List.mem_cons_self _ _⟩
        · have hsp := h2 t h
          exact ⟨fun hs => hsp.1 (List.mem_cons_of_mem _ hs),
                 List.mem_cons_of_mem _ hsp.2⟩

/-- Python `str.upper()` (ASCII case mapping, which is all the code
feature exercises — codes are `[A-Za-z]`/digit/hyphen strings). -/
def pyUpper (s : String) : String := String.mk (s.data.map Char.toUpper)

/-- Group matcher of `CODE_REGEX = .*?([A-Za-z]{3,6}-\d{2,6}).*` at one
start position: the greedy `[A-Za-z]{3,6}` can only succeed on the whole
letter run from this position (a shorter prefix is followed by a letter,
not `-`), so the condition is: letter run of length 3–6, then `-`, then
at least two digits, of which the greedy `\d{2,6}` captures at most
six. -/
def matchCodeAt (cs : List Char) : Option (List Char) :=
  let letters := cs.takeWhile Char.isAlpha
  let n := letters.length
  if 3 ≤ n ∧ n ≤ 6 then
    match cs.drop n with
    | c :: rest =>
      if c == '-' then
        let ds := rest.takeWhile Char.isDigit
        if 2 ≤ ds.length then some (letters ++ '-' :: ds.take 6) else none
      else none
    | [] => none
  else none

/-- `CODE_REGEX.search`: the lazy leading `.*?` yields the leftmost
position where the group matches. -/
def findCode : List Char → Option (List Char)
  | [] => none
  | c :: cs =>
    match matchCodeAt (c :: cs) with
    | some g => some g
    | none => findCode cs

/-- Python `str.split("/")`: all parts between slashes, empties
included (they are filtered by the caller). -/
def splitSlashGo (acc : List Char) : List Char → List String
  | [] => [String.mk acc.reverse]
  | c :: rest =>
    if c == '/' then String.mk acc.reverse :: splitSlashGo [] rest
    else splitSlashGo (c :: acc) rest

/-- Python `canon.split("/")`. -/
def pySplitSlash (s : String) : List String := splitSlashGo [] s.data

/-- Python `a or b` for the xpath result lists (an empty list is falsy). -/
def pyListOr (a b : List String) : List String := if a.isEmpty then b else a

/-- The comprehension `[p.strip() for p in l if p.strip()]`. -/
def stripNonEmpty (l : List String) : List String :=
  (l.map pyStrip).filter (· != "")

/-- Members of `stripNonEmpty` are non-empty and stripped. -/
theorem stripNonEmpty_mem (l : List String) (t : String) (ht : t ∈ stripNonEmpty l) :
    t ≠ "" ∧ pyStrip t = t := by
  unfold stripNonEmpty at ht
  obtain ⟨htm, hne⟩ := List.mem_filter.mp ht
  obtain ⟨x, -, hx⟩ := List.mem_map.mp htm
  constructor
  · simpa using hne
  · rw [← hx]
    exact pyStrip_idem x

/-- The image-URL fixup: protocol-relative URLs get `https:`,
root-relative URLs get the site origin (`BASE_SITE.rstrip("/")` is
`https://www.gravurefit.com` itself, it has no trailing slash). -/
def fixImageUrl (img : String) : String :=
  if img.startsWith "//" then "https:" ++ img
  else if img.startsWith "/" then "https://www.gravurefit.com" ++ img
  else img

/-- The code branch of `extract_gravure_fields` applied to the canonical
(or `og:url`) value: the uppercased `CODE_REGEX` group if it matches,
else the uppercased last non-empty path segment, else no code. -/
def extract_code (canon : String) : Option String :=
  match findCode canon.data with
  | some g => some (pyUpper (String.mk g))
  | none =>
    match ((pySplitSlash canon).filter (· != "")).getLast? with
    | some seg => some (pyUpper seg)
    | none => none

/-- The xpath query results `extract_gravure_fields` reads from a parsed
document, in source order: `//h1/text()`,
`//meta[@name='description']/@content`, `//p[@class='description']/text()`,
the whole-document text (`lxml.html.tostring(..., method="text")`), the
actress-table row and the `/profile`-link fallback, the theme-heading and
play/clothing-heading link lists, the three image queries, the
manufacturer cell, and the canonical / `og:url` values.  The lxml parse
itself is external to the embedding; `extract_gravure_fields` below takes
its outcome as input. -/
structure HtmlDoc where
  h1_texts : List String
  meta_description : List String
  p_description : List String
  doc_text : String
  performers_th : List String
  performers_profile : List String
  theme_links : List String
  play_links : List String
  photopc_imgs : List String
  package_video_imgs : List String
  og_image : List String
  maker_texts : List String
  canonical_href : List String
  og_url : List String

/-- The nine-key mapping built by `extract_gravure_fields` (`title_raw`,
`title`, `details`, `date`, `performers`, `tags`, `image`, `studio`,
`code` — each key always set, possibly to `None`/`[]`). -/
structure ExtractedFields where
  title_raw : Option String
  title : Option String
  details : Option String
  date : Option String
  performers : List String
  tags : List String
  image : Option String
  studio : Option String
  code : Option String

/-- Embedding of `extract_gravure_fields` (`Gravurefit_python.py` lines
232–318; the `JavLibrary_python.py` variant, lines 405–517, adds
per-field `try` blocks around the same queries and is otherwise
identical).  The argument is the outcome of the lxml parse (`none` when
both `fromstring` attempts fail — for string input the retry
`fromstring(str(html_content))` repeats the same call, so one outcome
covers both); `none` is returned exactly in that case (the empty
mapping), otherwise all nine fields are computed as in the source. -/
def extract_gravure_fields (doc? : Option HtmlDoc) : Option ExtractedFields :=
  match doc? with
  | none => none
  | some doc =>
    let raw_title := doc.h1_texts.head?.map pyStrip
    some {
      title_raw := raw_title
      title := normalize_title raw_title
      details := (pyListOr doc.meta_description doc.p_description).head?.map pyStrip
      date := find_earliest_date_in_text doc.doc_text
      performers := stripNonEmpty (pyListOr doc.performers_th doc.performers_profile)
      tags := dedupFirst (stripNonEmpty doc.theme_links ++ stripNonEmpty doc.play_links)
      image := ((pyListOr doc.photopc_imgs
                  (pyListOr doc.package_video_imgs doc.og_image)).head?).map fixImageUrl
      studio := doc.maker_texts.head?.map pyStrip
      code := (pyListOr doc.canonical_href doc.og_url).head?.bind extract_code }

/-- Claim C10 (confirmed): the extractor returns the empty mapping
exactly when the parse failed; otherwise a mapping with all nine keys
(the `ExtractedFields` record) in which `performers` and `tags` contain
only non-empty stripped strings and `tags` has no duplicates. -/
theorem C10_extract_invariants (doc? : Option HtmlDoc) :
    (extract_gravure_fields doc? = none ↔ doc? = none)
  ∧ (∀ f, extract_gravure_fields doc? = some f →
      (∀ t ∈ f.performers, t ≠ "" ∧ pyStrip t = t)
    ∧ (∀ t ∈ f.tags, t ≠ "" ∧ pyStrip t = t)
    ∧ f.tags.Nodup) := by
  constructor
  · cases doc? <;> simp [extract_gravure_fields]
  · intro f hf
    cases doc? with
    | none => simp [extract_gravure_fields] at hf
    | some doc =>
      simp only [extract_gravure_fields, Option.some.injEq] at hf
      subst hf
      refine ⟨?_, ?_, ?_⟩
      · intro t ht
        exact stripNonEmpty_mem _ t ht
      · intro t ht
        have hmem := ((dedupFirstGo_spec _ []).2 t ht).2
        rcases List.mem_append.mp hmem with h | h
        · exact stripNonEmpty_mem _ t h
        · exact stripNonEmpty_mem _ t h
      · exact (dedupFirstGo_spec _ []).1

/-- A concrete parsed document exercising the tag paths: an unstripped
performer, a duplicated tag between the theme and play groups. -/
def doc0 : HtmlDoc :=
  { h1_texts := [], meta_description := [], p_description := [], doc_text := "",
    performers_th := [" Alice "], performers_profile := [], theme_links := ["A ", "B"],
    play_links := ["A", "C"], photopc_imgs := [], package_video_imgs := [], og_image := [],
    maker_texts := [], canonical_href := [], og_url := [] }

/-- The field record `extract_gravure_fields` produces on `doc0`. -/
def fields0 : ExtractedFields :=
  { title_raw := none, title := none, details := none, date := none,
    performers := ["Alice"], tags := ["A", "B", "C"], image := none, studio := none,
    code := none }

/-- Claim C10, witness: on `doc0` the extractor yields `fields0` — nine
keys, performer stripped, tags deduplicated in first-occurrence order —
and the theorem applies to it. -/
theorem C10_witness :
    extract_gravure_fields (some doc0) = some fields0 ∧ fields0.tags.Nodup := by
  have heq : extract_gravure_fields (some doc0) = some fields0 := rfl
  exact ⟨heq, ((C10_extract_invariants (some doc0)).2 fields0 heq).2.2⟩
